import Mathlib

/-!
Shallow embedding of the PsychoJS experiment orchestrator
(`src/core/PsychoJS.js`): the `_configure` routine, the status symbol
table, the periodic-results-upload arming performed by `start()`, and the
termination sequence of `quit()`.

JavaScript `Symbol.for(key)` returns the same symbol for the same key, so
status symbols are modelled by their keys (strings).  JSON objects whose
keys may be absent (the `in` checks of `_configure`) are modelled with
`Option` fields.  The `Map` of server parameters is modelled by its
lookup function, built by the same fold over the URL parameters as the
source's `forEach`/`set` loop.
-/

/-- A JS `Symbol.for` symbol, identified by its key. -/
abbrev StatusSym := String

/-- `PsychoJS.Status` table (src/core/PsychoJS.js, bottom of file).
`STOPPED` is deliberately registered under the `FINISHED` key. -/
def PsychoJSStatus.CONFIGURED : StatusSym := "CONFIGURED"

def PsychoJSStatus.CONFIGURING : StatusSym := "CONFIGURING"

def PsychoJSStatus.ERROR : StatusSym := "ERROR"

def PsychoJSStatus.FINISHED : StatusSym := "FINISHED"

def PsychoJSStatus.NOT_CONFIGURED : StatusSym := "NOT_CONFIGURED"

def PsychoJSStatus.NOT_STARTED : StatusSym := "NOT_STARTED"

def PsychoJSStatus.PAUSED : StatusSym := "PAUSED"

def PsychoJSStatus.STARTED : StatusSym := "STARTED"

def PsychoJSStatus.STOPPED : StatusSym := "FINISHED"

/-- `ExperimentHandler.Environment`. -/
inductive Environment : Type
  | SERVER : Environment
  | LOCAL : Environment
deriving DecidableEq, Repr

/-- `ExperimentHandler.SaveFormat`. -/
inductive SaveFormat : Type
  | CSV : SaveFormat
  | DATABASE : SaveFormat
deriving DecidableEq, Repr

/-- `config.experiment.resultsUpload`, as initialised by `_configure` and
mutated by `start()`/`quit()`. -/
structure ResultsUpload : Type where
  intervalId : Int
  period : Int
deriving DecidableEq, Repr

/-- The `experiment` block of a configuration.  Fields are `Option`s
because the source tests key presence with the `in` operator. -/
structure ExperimentBlock : Type where
  name : Option String
  fullpath : Option String
  keys : Option (List String)
  saveFormat : Option SaveFormat
  saveIncompleteResults : Option Bool
  resultsUpload : Option ResultsUpload
deriving DecidableEq, Repr

/-- The `pavlovia` block of a configuration. -/
structure PavloviaBlock : Type where
  URL : Option String
deriving DecidableEq, Repr

/-- The `gitlab` block of a configuration. -/
structure GitlabBlock : Type where
  projectId : Option String
deriving DecidableEq, Repr

/-- A configuration object: either a server response (`serverResponse.config`)
or the internal `this._config`.  `psychoJsManager : Bool` records the
presence of the legacy block (its contents are never read). -/
structure Config : Type where
  environment : Option Environment
  psychoJsManager : Bool
  experiment : Option ExperimentBlock
  pavlovia : Option PavloviaBlock
  gitlab : Option GitlabBlock
deriving DecidableEq, Repr

/-- The `{origin, context, error}` triple produced by
`Object.assign(response, { error })` in the catch blocks. -/
structure ErrorResponse : Type where
  origin : String
  context : String
  error : String
deriving DecidableEq, Repr

def configResponseOrigin : String := "PsychoJS.configure"

def configResponseContext : String := "when configuring PsychoJS for the experiment"

/-- Legacy update of `_configure`: a `psychoJsManager` block is deleted and
replaced by a `pavlovia` block with URL `https://pavlovia.org`
(src/core/PsychoJS.js lines 276-283). -/
def applyLegacy (cfg : Config) : Config :=
  if cfg.psychoJsManager then
    { cfg with
      psychoJsManager := false,
      pavlovia := some { URL := some "https://pavlovia.org" } }
  else cfg

/-- The validation cascade of `_configure` (lines 285-308), run on the
configuration after the legacy update; throws are modelled by
`Except.error` carrying the thrown string. -/
def validateFixedConfig (cfg : Config) : Except String Config :=
  match cfg.experiment with
  | none => Except.error "missing experiment block in configuration"
  | some exp =>
    if exp.name.isNone then
      Except.error "missing name in experiment block in configuration"
    else if exp.fullpath.isNone then
      Except.error "missing fullpath in experiment block in configuration"
    else
      match cfg.pavlovia with
      | none => Except.error "missing pavlovia block in configuration"
      | some pav =>
        if pav.URL.isNone then
          Except.error "missing URL in pavlovia block in configuration"
        else
          match cfg.gitlab with
          | none => Except.error "missing gitlab block in configuration"
          | some gl =>
            if gl.projectId.isNone then
              Except.error "missing projectId in gitlab block in configuration"
            else
              Except.ok { cfg with environment := some Environment.SERVER }

/-- The server branch of `_configure`: legacy update, then validation. -/
def validateServerConfig (serverConfig : Config) : Except String Config :=
  validateFixedConfig (applyLegacy serverConfig)

/-- The ad-hoc local configuration synthesized by `_configure`'s else
branch (lines 310-321). -/
def localConfig (name : String) : Config :=
  { environment := some Environment.LOCAL,
    psychoJsManager := false,
    experiment := some
      { name := some name,
        fullpath := none,
        keys := some [],
        saveFormat := some SaveFormat.CSV,
        saveIncompleteResults := some true,
        resultsUpload := none },
    pavlovia := none,
    gitlab := none }

/-- The body of `_configure` up to (excluding) the `resultsUpload`
initialisation: branch on whether the run originates from an approved
host. -/
def configureBody (isHost : Bool) (serverConfig : Config) (name : String) :
    Except String Config :=
  if isHost then validateServerConfig serverConfig else Except.ok (localConfig name)

/-- `this._config.experiment.resultsUpload = {intervalId: -1, period: -1}`
(lines 322-326); `experiment` is always present at this point. -/
def Config.setResultsUpload (cfg : Config) (ru : ResultsUpload) : Config :=
  { cfg with
    experiment := cfg.experiment.map fun e => { e with resultsUpload := some ru } }

/-- `this._config.experiment.resultsUpload`, read by `start()`/`quit()`. -/
def Config.resultsUploadOf (cfg : Config) : Option ResultsUpload :=
  cfg.experiment.bind fun e => e.resultsUpload

/-- `this._config.pavlovia.URL`. -/
def Config.pavloviaURL (cfg : Config) : Option String :=
  cfg.pavlovia.bind fun p => p.URL

/-- `this._config.gitlab.projectId`. -/
def Config.gitlabProjectId (cfg : Config) : Option String :=
  cfg.gitlab.bind fun g => g.projectId

/-- External assignment of `resultsUpload.period` (performed by the
experiment script between configuration and `start()`). -/
def Config.setPeriod (cfg : Config) (p : Int) : Config :=
  { cfg with
    experiment := cfg.experiment.map fun e =>
      { e with resultsUpload := e.resultsUpload.map fun ru => { ru with period := p } } }

/-- The `_serverMsg` Map, represented by its lookup function. -/
def ServerMsg : Type := String → Option String

def emptyServerMsg : ServerMsg := fun _ => none

/-- `key.indexOf("__") === 0`: the key begins with a double underscore. -/
def dunderPrefixed (k : String) : Bool :=
  match k.data with
  | '_' :: '_' :: _ => true
  | _ => false

/-- One iteration of the `forEach` of lines 330-334: `Map.set(key, value)`
for keys starting with a double underscore. -/
def serverMsgStep (m : ServerMsg) (p : String × String) : ServerMsg :=
  if dunderPrefixed p.1 then fun k => if k = p.1 then some p.2 else m k else m

/-- The full population of `this._serverMsg` from the URL parameters. -/
def buildServerMsg (params : List (String × String)) : ServerMsg :=
  params.foldl serverMsgStep emptyServerMsg

/-- The state written by `_configure` on success. -/
structure ConfigureOutput : Type where
  config : Config
  serverMsg : ServerMsg
  saveResults : Bool

/-- `_configure(configURL, name)` (lines 256-347).  Inputs: whether
`window.location.href` matches an approved host, the fetched server
configuration (consulted only when it does), the caller-supplied
experiment name, the URL query parameters, and the incoming
`_saveResults` flag.  Returns the final `status` together with either the
wrapped thrown error (status stays `CONFIGURING`) or the produced state
(status `CONFIGURED`). -/
def _configure (isHost : Bool) (serverConfig : Config) (name : String)
    (urlParams : List (String × String)) (saveResults0 : Bool) :
    StatusSym × Except ErrorResponse ConfigureOutput :=
  match configureBody isHost serverConfig name with
  | Except.error e =>
    (PsychoJSStatus.CONFIGURING,
      Except.error
        { origin := configResponseOrigin, context := configResponseContext, error := e })
  | Except.ok cfg0 =>
    let cfg := cfg0.setResultsUpload { intervalId := -1, period := -1 }
    let msg := buildServerMsg urlParams
    let save := if (msg "__noOutput").isSome then false else saveResults0
    (PsychoJSStatus.CONFIGURED,
      Except.ok { config := cfg, serverMsg := msg, saveResults := save })

/-- Whether `_configure` succeeded. -/
def configureOk (r : StatusSym × Except ErrorResponse ConfigureOutput) : Bool :=
  match r.2 with
  | Except.ok _ => true
  | Except.error _ => false

/-- The internal configuration produced by a successful `_configure`. -/
def configuredConfig (r : StatusSym × Except ErrorResponse ConfigureOutput) :
    Option Config :=
  match r.2 with
  | Except.ok out => some out.config
  | Except.error _ => none

/-- Specification-side reading of the validation cascade: the first
missing required field, reported by the exact message the code throws
for it. -/
def firstMissing (cfg : Config) : Option String :=
  match cfg.experiment with
  | none => some "missing experiment block in configuration"
  | some exp =>
    if exp.name.isNone then
      some "missing name in experiment block in configuration"
    else if exp.fullpath.isNone then
      some "missing fullpath in experiment block in configuration"
    else
      match cfg.pavlovia with
      | none => some "missing pavlovia block in configuration"
      | some pav =>
        if pav.URL.isNone then
          some "missing URL in pavlovia block in configuration"
        else
          match cfg.gitlab with
          | none => some "missing gitlab block in configuration"
          | some gl =>
            if gl.projectId.isNone then
              some "missing projectId in gitlab block in configuration"
            else none

/-- The value carried by the last occurrence of key `k` in the parameter
list (what `Map.get` returns after the population loop). -/
def lastVal (params : List (String × String)) (k : String) : Option String :=
  match params with
  | [] => none
  | p :: rest =>
    match lastVal rest k with
    | some v => some v
    | none => if p.1 = k then some p.2 else none

/-- The mutable state of a run that the claims are about. -/
structure RunState : Type where
  config : Config
  serverMsg : ServerMsg
  saveResults : Bool
  status : StatusSym

/-- The state changes performed by `start()` (lines 664-816) on these
fields: inside the SERVER-environment branch, when `_saveResults` holds
and `resultsUpload.period > 0`, `setInterval` is armed and its (positive)
timer id stored in `resultsUpload.intervalId` (lines 764-778); the status
is then set to `STARTED`.  `start()` never writes `_serverMsg`. -/
def startStep (s : RunState) (timerId : Int) : RunState :=
  { s with
    config :=
      { s.config with
        experiment := s.config.experiment.map fun e =>
          { e with
            resultsUpload := e.resultsUpload.map fun ru =>
              if s.config.environment = some Environment.SERVER
                  ∧ s.saveResults = true ∧ ru.period > 0 then
                { ru with intervalId := timerId }
              else ru } },
    status := PsychoJSStatus.STARTED }

def quitResponseOrigin : String := "PsychoJS.quit"

def quitResponseContext : String := "when terminating the experiment"

/-- Which of `quit()`'s effectful steps ran, and the error thrown inside
its `try` block, if any. -/
structure QuitTrace : Type where
  didSave : Bool
  didFlush : Bool
  didCloseSession : Bool
  terminated : Bool
  thrown : Option String
deriving DecidableEq, Repr

/-- Tail of `quit()`'s try block (lines 544-588): close the session when
running in the SERVER environment (its failure throws), then either show
the goodbye dialog (`onTerminate` deferred to the OK callback) or run
`onTerminate` at once when `showOK` is false. -/
def quitCloseAndTerminate (isServerEnv showOK didSave didFlush : Bool)
    (closeOutcome : Except String Unit) : QuitTrace :=
  if isServerEnv then
    match closeOutcome with
    | Except.error e =>
      { didSave := didSave, didFlush := didFlush, didCloseSession := true,
        terminated := false, thrown := some e }
    | Except.ok _ =>
      { didSave := didSave, didFlush := didFlush, didCloseSession := true,
        terminated := !showOK, thrown := none }
  else
    { didSave := didSave, didFlush := didFlush, didCloseSession := false,
      terminated := !showOK, thrown := none }

/-- `quit()`'s try block from the saving step on (lines 535-588): results
are saved and logs flushed only when `(isCompleted || saveIncompleteResults)
&& _saveResults`; `save`/`flush`/`closeSession` failures abort the
sequence.  The outcomes of the three awaited calls are inputs. -/
def quitCore (isServerEnv saveIncomplete saveResults isCompleted showOK : Bool)
    (saveOutcome flushOutcome closeOutcome : Except String Unit) : QuitTrace :=
  if (isCompleted || saveIncomplete) && saveResults then
    match saveOutcome with
    | Except.error e =>
      { didSave := true, didFlush := false, didCloseSession := false,
        terminated := false, thrown := some e }
    | Except.ok _ =>
      match flushOutcome with
      | Except.error e =>
        { didSave := true, didFlush := true, didCloseSession := false,
          terminated := false, thrown := some e }
      | Except.ok _ => quitCloseAndTerminate isServerEnv showOK true true closeOutcome
  else quitCloseAndTerminate isServerEnv showOK false false closeOutcome

/-- The observable outcome of one `quit()` call. -/
structure QuitResult : Type where
  status : StatusSym
  intervalId : Int
  didSave : Bool
  didFlush : Bool
  didCloseSession : Bool
  terminated : Bool
  error : Option ErrorResponse
deriving DecidableEq, Repr

/-- `quit({closeWindow, isCompleted, message, showOK})` (lines 494-594).
The status is set to `STOPPED` up front; the periodic-upload interval is
cleared (lines 523-526); the save/flush/close sequence runs; a throw is
caught, the status set to `ERROR`, and the error rethrown wrapped with
`{origin, context, error}`; otherwise `onTerminate` (when it runs) sets
the status to `FINISHED`. -/
def quitRun (isServerEnv saveIncomplete saveResults isCompleted showOK : Bool)
    (intervalId0 : Int) (saveOutcome flushOutcome closeOutcome : Except String Unit) :
    QuitResult :=
  let intervalId1 : Int := if intervalId0 > 0 then -1 else intervalId0
  let tr := quitCore isServerEnv saveIncomplete saveResults isCompleted showOK
    saveOutcome flushOutcome closeOutcome
  match tr.thrown with
  | some e =>
    { status := PsychoJSStatus.ERROR, intervalId := intervalId1,
      didSave := tr.didSave, didFlush := tr.didFlush,
      didCloseSession := tr.didCloseSession, terminated := false,
      error := some
        { origin := quitResponseOrigin, context := quitResponseContext, error := e } }
  | none =>
    { status := if tr.terminated then PsychoJSStatus.FINISHED else PsychoJSStatus.STOPPED,
      intervalId := intervalId1,
      didSave := tr.didSave, didFlush := tr.didFlush,
      didCloseSession := tr.didCloseSession, terminated := tr.terminated,
      error := none }

/-- `quit()` acting on a `RunState`: the inputs `isServerEnv`,
`saveIncompleteResults` and the current `intervalId` are read from the
state exactly as the source reads `this._config` (after `_configure`,
`experiment` and `resultsUpload` are always present); the resulting
status and `intervalId` are written back.  `quit()` never writes
`_serverMsg`. -/
def quitStep (s : RunState) (isCompleted showOK : Bool)
    (saveOutcome flushOutcome closeOutcome : Except String Unit) :
    RunState × Option ErrorResponse :=
  let isServerEnv := decide (s.config.environment = some Environment.SERVER)
  let saveIncomplete := (s.config.experiment.bind fun e => e.saveIncompleteResults).getD false
  let intervalId0 := (s.config.resultsUploadOf.map fun ru => ru.intervalId).getD (-1)
  let res := quitRun isServerEnv saveIncomplete s.saveResults isCompleted showOK
    intervalId0 saveOutcome flushOutcome closeOutcome
  ({ s with
      status := res.status,
      config :=
        { s.config with
          experiment := s.config.experiment.map fun e =>
            { e with
              resultsUpload := e.resultsUpload.map fun ru =>
                { ru with intervalId := res.intervalId } } } },
    res.error)

theorem validateFixedConfig_eq (cfg : Config) :
    validateFixedConfig cfg =
      match firstMissing cfg with
      | some msg => Except.error msg
      | none => Except.ok { cfg with environment := some Environment.SERVER } := by
  unfold validateFixedConfig firstMissing
  cases cfg.experiment with
  | none => rfl
  | some exp =>
    by_cases h1 : exp.name.isNone
    · simp [h1]
    · by_cases h2 : exp.fullpath.isNone
      · simp [h1, h2]
      · simp only [h1, h2, if_false, Bool.false_eq_true]
        cases cfg.pavlovia with
        | none => simp
        | some pav =>
          by_cases h3 : pav.URL.isNone
          · simp [h3]
          · simp only [h3, if_false, Bool.false_eq_true]
            cases cfg.gitlab with
            | none => simp
            | some gl =>
              by_cases h4 : gl.projectId.isNone
              · simp [h4]
              · simp [h4]

theorem foldl_serverMsgStep (params : List (String × String)) :
    ∀ (m : ServerMsg) (k : String),
      params.foldl serverMsgStep m k =
        if dunderPrefixed k then
          match lastVal params k with
          | some v => some v
          | none => m k
        else m k := by
  induction params with
  | nil =>
    intro m k
    simp [lastVal, List.foldl_nil]
  | cons p rest ih =>
    intro m k
    rw [List.foldl_cons, ih]
    by_cases hk : dunderPrefixed k
    · simp only [hk, if_true]
      cases hrest : lastVal rest k with
      | some v => simp [lastVal, hrest]
      | none =>
        simp only [lastVal, hrest]
        unfold serverMsgStep
        by_cases hp : dunderPrefixed p.1
        · simp only [hp, if_true]
          by_cases hkp : k = p.1
          · simp [hkp]
          · have : ¬p.1 = k := fun h => hkp h.symm
            simp [hkp, this]
        · have hkp : ¬p.1 = k := fun h => hp (h ▸ hk)
          simp [hp, hkp]
    · simp only [hk, if_false]
      unfold serverMsgStep
      by_cases hp : dunderPrefixed p.1
      · have hkp : ¬k = p.1 := fun h => hk (h ▸ hp)
        simp [hp, hkp]
      · simp [hp]

theorem lastVal_isSome_of_mem (params : List (String × String)) (k v : String)
    (h : (k, v) ∈ params) : (lastVal params k).isSome = true := by
  induction params with
  | nil => cases h
  | cons p rest ih =>
    rcases List.mem_cons.mp h with h | h
    · cases hrest : lastVal rest k with
      | some w => simp [lastVal, hrest]
      | none =>
        have : p.1 = k := by rw [← h]
        simp [lastVal, hrest, this]
    · obtain ⟨w, hw⟩ := Option.isSome_iff_exists.mp (ih h)
      simp [lastVal, hw]

theorem firstMissing_none_fields (cfg : Config) (h : firstMissing cfg = none) :
    cfg.experiment.isSome = true
      ∧ cfg.pavloviaURL.isSome = true ∧ cfg.gitlabProjectId.isSome = true := by
  unfold firstMissing at h
  cases hexp : cfg.experiment with
  | none => rw [hexp] at h; cases h
  | some exp =>
    rw [hexp] at h
    by_cases h1 : exp.name.isNone
    · simp [h1] at h
    · by_cases h2 : exp.fullpath.isNone
      · simp [h1, h2] at h
      · simp only [h1, h2, if_false, Bool.false_eq_true] at h
        cases hpav : cfg.pavlovia with
        | none => rw [hpav] at h; cases h
        | some pav =>
          rw [hpav] at h
          by_cases h3 : pav.URL.isNone
          · simp [h3] at h
          · simp only [h3, if_false, Bool.false_eq_true] at h
            cases hgl : cfg.gitlab with
            | none => rw [hgl] at h; cases h
            | some gl =>
              rw [hgl] at h
              by_cases h4 : gl.projectId.isNone
              · simp [h4] at h
              · refine ⟨by simp [hexp], ?_, ?_⟩
                · cases hu : pav.URL with
                  | none => rw [hu] at h3; exact absurd rfl h3
                  | some u => simp [Config.pavloviaURL, hpav, hu]
                · cases hp : gl.projectId with
                  | none => rw [hp] at h4; exact absurd rfl h4
                  | some pid => simp [Config.gitlabProjectId, hgl, hp]

theorem configure_ok_shape (isHost : Bool) (cfg : Config) (name : String)
    (params : List (String × String)) (sr : Bool) (out : ConfigureOutput)
    (hok : (_configure isHost cfg name params sr).2 = Except.ok out) :
    out.serverMsg = buildServerMsg params
      ∧ out.saveResults
          = (if (buildServerMsg params "__noOutput").isSome then false else sr)
      ∧ ∃ c, configureBody isHost cfg name = Except.ok c
          ∧ out.config = c.setResultsUpload { intervalId := -1, period := -1 } := by
  unfold _configure at hok
  cases hb : configureBody isHost cfg name with
  | error e => rw [hb] at hok; cases hok
  | ok c =>
    rw [hb] at hok
    simp only at hok
    injection hok with h
    subst h
    exact ⟨rfl, rfl, c, rfl, rfl⟩

/-- The local-branch configuration after the `resultsUpload`
initialisation. -/
def localConfigFull (name : String) : Config :=
  (localConfig name).setResultsUpload { intervalId := -1, period := -1 }

/-- C9: `PsychoJS.Status.STOPPED` and `PsychoJS.Status.FINISHED` are the
same symbol (both `Symbol.for("FINISHED")`), so a status set to `STOPPED`
— as `quit()` does at its start — is indistinguishable from one set to
`FINISHED`: every comparison against either constant yields the same
result.  In particular a `quit()` that leaves the status at `STOPPED`
(goodbye dialog still showing) reports a status equal to `FINISHED`. -/
theorem status_stopped_eq_finished :
    PsychoJSStatus.STOPPED = PsychoJSStatus.FINISHED
      ∧ (∀ s : StatusSym, s = PsychoJSStatus.STOPPED ↔ s = PsychoJSStatus.FINISHED)
      ∧ (quitRun true true true false true (-1) (Except.ok ()) (Except.ok ())
          (Except.ok ())).status = PsychoJSStatus.FINISHED :=
  ⟨rfl, fun _ => Iff.rfl, rfl⟩

/-- C8: for every run not launched from an approved host, `_configure`
ignores the (would-be) server configuration entirely and synthesizes a
local configuration with `environment = LOCAL`, `saveFormat = CSV`,
`saveIncompleteResults = true` and the caller-supplied experiment name,
reaching status `CONFIGURED`.  The right-hand side does not mention the
server configuration: no remote configuration is consulted. -/
theorem configure_local_defaults (cfg : Config) (name : String)
    (params : List (String × String)) (sr : Bool) :
    _configure false cfg name params sr =
      (PsychoJSStatus.CONFIGURED,
        Except.ok
          { config := localConfigFull name,
            serverMsg := buildServerMsg params,
            saveResults :=
              if (buildServerMsg params "__noOutput").isSome then false else sr })
      ∧ localConfigFull name =
          { environment := some Environment.LOCAL,
            psychoJsManager := false,
            experiment := some
              { name := some name,
                fullpath := none,
                keys := some [],
                saveFormat := some SaveFormat.CSV,
                saveIncompleteResults := some true,
                resultsUpload := some { intervalId := -1, period := -1 } },
            pavlovia := none,
            gitlab := none } :=
  ⟨rfl, rfl⟩

/-- A fetched configuration carrying the legacy `psychoJsManager` block
and no `pavlovia` block. -/
def cfgLegacyNoPavlovia : Config :=
  { environment := none,
    psychoJsManager := true,
    experiment := some
      { name := some "exp", fullpath := some "user/exp", keys := none,
        saveFormat := none, saveIncompleteResults := none, resultsUpload := none },
    pavlovia := none,
    gitlab := some { projectId := some "42" } }

/-- C1 counterexample: a configuration fetched from an approved host that
is missing the required `pavlovia` block does NOT make `_configure`
throw — the legacy `psychoJsManager` handling substitutes a `pavlovia`
block first, and the status reaches `CONFIGURED`. -/
theorem configure_missing_pavlovia_accepted :
    cfgLegacyNoPavlovia.pavlovia = none
      ∧ (_configure true cfgLegacyNoPavlovia "exp" [] true).1 = PsychoJSStatus.CONFIGURED
      ∧ configureOk (_configure true cfgLegacyNoPavlovia "exp" [] true) = true :=
  ⟨rfl, rfl, rfl⟩

/-- C1 (amended): for every configuration fetched from an approved host
that does not carry a legacy `psychoJsManager` block, if any required
field (the experiment block, `experiment.name`, `experiment.fullpath`,
the pavlovia block, `pavlovia.URL`, the gitlab block, or
`gitlab.projectId`) is missing, `_configure` throws an error whose
message names the first missing field in validation order, wrapped with
`{origin, context, error}`, and the status never becomes `CONFIGURED`
(it remains `CONFIGURING`). -/
theorem configure_missing_field_error (cfg : Config) (name : String)
    (params : List (String × String)) (sr : Bool) (msg : String)
    (hleg : cfg.psychoJsManager = false)
    (hmiss : firstMissing cfg = some msg) :
    _configure true cfg name params sr =
        (PsychoJSStatus.CONFIGURING,
          Except.error
            { origin := configResponseOrigin,
              context := configResponseContext,
              error := msg })
      ∧ PsychoJSStatus.CONFIGURING ≠ PsychoJSStatus.CONFIGURED := by
  have hfix : applyLegacy cfg = cfg := by simp [applyLegacy, hleg]
  have hbody : configureBody true cfg name = Except.error msg := by
    have h0 : configureBody true cfg name = validateFixedConfig (applyLegacy cfg) := rfl
    rw [h0, hfix, validateFixedConfig_eq, hmiss]
  refine ⟨?_, by decide⟩
  unfold _configure
  rw [hbody]

/-- A fetched configuration (no legacy block) whose experiment block is
missing `name`. -/
def cfgMissingName : Config :=
  { environment := none,
    psychoJsManager := false,
    experiment := some
      { name := none, fullpath := some "user/exp", keys := none,
        saveFormat := none, saveIncompleteResults := none, resultsUpload := none },
    pavlovia := some { URL := some "https://pavlovia.org" },
    gitlab := some { projectId := some "42" } }

theorem configure_missing_field_error_witness :
    (cfgMissingName.psychoJsManager = false
        ∧ firstMissing cfgMissingName
            = some "missing name in experiment block in configuration")
      ∧ (_configure true cfgMissingName "exp" [] true =
            (PsychoJSStatus.CONFIGURING,
              Except.error
                { origin := configResponseOrigin,
                  context := configResponseContext,
                  error := "missing name in experiment block in configuration" })
          ∧ PsychoJSStatus.CONFIGURING ≠ PsychoJSStatus.CONFIGURED) :=
  ⟨⟨rfl, rfl⟩, configure_missing_field_error cfgMissingName "exp" [] true _ rfl rfl⟩

theorem firstMissing_none_of_fields (cfg : Config) (exp : ExperimentBlock)
    (pav : PavloviaBlock) (gl : GitlabBlock) (nm fp u pid : String)
    (hexp : cfg.experiment = some exp) (hn : exp.name = some nm)
    (hf : exp.fullpath = some fp)
    (hpav : cfg.pavlovia = some pav) (hu : pav.URL = some u)
    (hgl : cfg.gitlab = some gl) (hp : gl.projectId = some pid) :
    firstMissing cfg = none := by
  unfold firstMissing
  rw [hexp, hpav, hgl]
  simp [hn, hf, hu, hp]

theorem configure_server_ok (cfg : Config) (name : String)
    (params : List (String × String)) (sr : Bool)
    (hfm : firstMissing (applyLegacy cfg) = none) :
    _configure true cfg name params sr =
      (PsychoJSStatus.CONFIGURED,
        Except.ok
          { config :=
              Config.setResultsUpload
                { applyLegacy cfg with environment := some Environment.SERVER }
                { intervalId := -1, period := -1 },
            serverMsg := buildServerMsg params,
            saveResults :=
              if (buildServerMsg params "__noOutput").isSome then false else sr }) := by
  have hbody : configureBody true cfg name
      = Except.ok { applyLegacy cfg with environment := some Environment.SERVER } := by
    have h0 : configureBody true cfg name = validateFixedConfig (applyLegacy cfg) := rfl
    rw [h0, validateFixedConfig_eq, hfm]
  unfold _configure
  rw [hbody]

/-- A valid server response that also carries the legacy
`psychoJsManager` block and its own `pavlovia.URL`. -/
def cfgLegacyWithPavlovia : Config :=
  { environment := none,
    psychoJsManager := true,
    experiment := some
      { name := some "exp", fullpath := some "user/exp", keys := none,
        saveFormat := none, saveIncompleteResults := none, resultsUpload := none },
    pavlovia := some { URL := some "https://example.org/custom" },
    gitlab := some { projectId := some "42" } }

/-- C3 counterexample: a server response containing every required block
whose `pavlovia.URL` is `https://example.org/custom` is accepted, but the
internal configuration's pavlovia URL is `https://pavlovia.org`, not the
input field: the legacy `psychoJsManager` handling overwrote it. -/
theorem configure_legacy_url_not_roundtripped :
    cfgLegacyWithPavlovia.pavloviaURL = some "https://example.org/custom"
      ∧ (configuredConfig (_configure true cfgLegacyWithPavlovia "exp" [] true)).map
            Config.pavloviaURL
          = some (some "https://pavlovia.org")
      ∧ (_configure true cfgLegacyWithPavlovia "exp" [] true).1
          = PsychoJSStatus.CONFIGURED :=
  ⟨rfl, rfl, rfl⟩

/-- C3 (amended): every valid server configuration response (containing
all required blocks) without a legacy `psychoJsManager` block produces an
internal configuration with `environment = SERVER` whose pavlovia URL and
gitlab projectId equal the corresponding input fields, and the status
reaches `CONFIGURED`. -/
theorem configure_server_roundtrip (cfg : Config) (name : String)
    (params : List (String × String)) (sr : Bool)
    (exp : ExperimentBlock) (pav : PavloviaBlock) (gl : GitlabBlock)
    (nm fp u pid : String)
    (hleg : cfg.psychoJsManager = false)
    (hexp : cfg.experiment = some exp) (hn : exp.name = some nm)
    (hf : exp.fullpath = some fp)
    (hpav : cfg.pavlovia = some pav) (hu : pav.URL = some u)
    (hgl : cfg.gitlab = some gl) (hp : gl.projectId = some pid) :
    _configure true cfg name params sr =
        (PsychoJSStatus.CONFIGURED,
          Except.ok
            { config :=
                Config.setResultsUpload
                  { cfg with environment := some Environment.SERVER }
                  { intervalId := -1, period := -1 },
              serverMsg := buildServerMsg params,
              saveResults :=
                if (buildServerMsg params "__noOutput").isSome then false else sr })
      ∧ (Config.setResultsUpload { cfg with environment := some Environment.SERVER }
            { intervalId := -1, period := -1 }).environment = some Environment.SERVER
      ∧ (Config.setResultsUpload { cfg with environment := some Environment.SERVER }
            { intervalId := -1, period := -1 }).pavloviaURL = some u
      ∧ (Config.setResultsUpload { cfg with environment := some Environment.SERVER }
            { intervalId := -1, period := -1 }).gitlabProjectId = some pid := by
  have hfix : applyLegacy cfg = cfg := by simp [applyLegacy, hleg]
  have hfm : firstMissing (applyLegacy cfg) = none := by
    rw [hfix]
    exact firstMissing_none_of_fields cfg exp pav gl nm fp u pid hexp hn hf hpav hu hgl hp
  have h := configure_server_ok cfg name params sr hfm
  rw [hfix] at h
  refine ⟨h, rfl, ?_, ?_⟩
  · simp [Config.setResultsUpload, Config.pavloviaURL, hpav, hu]
  · simp [Config.setResultsUpload, Config.gitlabProjectId, hgl, hp]

/-- A valid modern server response. -/
def cfgValidServer : Config :=
  { environment := none,
    psychoJsManager := false,
    experiment := some
      { name := some "exp", fullpath := some "user/exp", keys := none,
        saveFormat := none, saveIncompleteResults := none, resultsUpload := none },
    pavlovia := some { URL := some "https://pavlovia.org/run/user/exp" },
    gitlab := some { projectId := some "42" } }

theorem configure_server_roundtrip_witness :
    (cfgValidServer.psychoJsManager = false
        ∧ cfgValidServer.pavloviaURL = some "https://pavlovia.org/run/user/exp"
        ∧ cfgValidServer.gitlabProjectId = some "42")
      ∧ ((_configure true cfgValidServer "exp" [] true).1 = PsychoJSStatus.CONFIGURED
          ∧ (configuredConfig (_configure true cfgValidServer "exp" [] true)).map
                Config.pavloviaURL
              = some (some "https://pavlovia.org/run/user/exp")
          ∧ (configuredConfig (_configure true cfgValidServer "exp" [] true)).map
                Config.gitlabProjectId
              = some (some "42")) := by
  have h := configure_server_roundtrip cfgValidServer "exp" [] true
    (cfgValidServer.experiment.get rfl) (cfgValidServer.pavlovia.get rfl)
    (cfgValidServer.gitlab.get rfl)
    "exp" "user/exp" "https://pavlovia.org/run/user/exp" "42"
    rfl rfl rfl rfl rfl rfl rfl rfl
  refine ⟨⟨rfl, rfl, rfl⟩, ?_, ?_, ?_⟩
  · rw [h.1]
  · rw [h.1]; exact congrArg some h.2.2.1
  · rw [h.1]; exact congrArg some h.2.2.2

/-- C10: a server configuration response carrying a legacy
`psychoJsManager` block has that block deleted and a `pavlovia` block
with URL `https://pavlovia.org` substituted before validation, so that —
given the remaining required fields — it passes the pavlovia-block
checks and yields `environment = SERVER` with status `CONFIGURED`,
exactly as a modern configuration would. -/
theorem configure_legacy_psychoJsManager (cfg : Config) (name : String)
    (params : List (String × String)) (sr : Bool)
    (exp : ExperimentBlock) (gl : GitlabBlock) (nm fp pid : String)
    (hleg : cfg.psychoJsManager = true)
    (hexp : cfg.experiment = some exp) (hn : exp.name = some nm)
    (hf : exp.fullpath = some fp)
    (hgl : cfg.gitlab = some gl) (hp : gl.projectId = some pid) :
    applyLegacy cfg =
        { cfg with
          psychoJsManager := false,
          pavlovia := some { URL := some "https://pavlovia.org" } }
      ∧ _configure true cfg name params sr =
          (PsychoJSStatus.CONFIGURED,
            Except.ok
              { config :=
                  Config.setResultsUpload
                    { cfg with
                      psychoJsManager := false,
                      pavlovia := some { URL := some "https://pavlovia.org" },
                      environment := some Environment.SERVER }
                    { intervalId := -1, period := -1 },
                serverMsg := buildServerMsg params,
                saveResults :=
                  if (buildServerMsg params "__noOutput").isSome then false else sr }) := by
  have hfix : applyLegacy cfg =
      { cfg with
        psychoJsManager := false,
        pavlovia := some { URL := some "https://pavlovia.org" } } := by
    simp [applyLegacy, hleg]
  have hfm : firstMissing (applyLegacy cfg) = none := by
    rw [hfix]
    exact firstMissing_none_of_fields _ exp { URL := some "https://pavlovia.org" } gl
      nm fp "https://pavlovia.org" pid hexp hn hf rfl rfl hgl hp
  have h := configure_server_ok cfg name params sr hfm
  rw [hfix] at h
  exact ⟨hfix, h⟩

theorem configure_legacy_psychoJsManager_witness :
    (cfgLegacyWithPavlovia.psychoJsManager = true
        ∧ cfgLegacyWithPavlovia.gitlabProjectId = some "42")
      ∧ ((_configure true cfgLegacyWithPavlovia "exp" [] true).1
            = PsychoJSStatus.CONFIGURED
          ∧ (configuredConfig (_configure true cfgLegacyWithPavlovia "exp" [] true)).map
                (fun c => c.psychoJsManager) = some false
          ∧ (configuredConfig (_configure true cfgLegacyWithPavlovia "exp" [] true)).map
                Config.pavloviaURL = some (some "https://pavlovia.org")
          ∧ (configuredConfig (_configure true cfgLegacyWithPavlovia "exp" [] true)).map
                (fun c => c.environment) = some (some Environment.SERVER)) := by
  have h := configure_legacy_psychoJsManager cfgLegacyWithPavlovia "exp" [] true
    (cfgLegacyWithPavlovia.experiment.get rfl) (cfgLegacyWithPavlovia.gitlab.get rfl)
    "exp" "user/exp" "42" rfl rfl rfl rfl rfl rfl
  refine ⟨⟨rfl, rfl⟩, ?_, ?_, ?_, ?_⟩ <;> rw [h.2] <;> rfl

theorem configure_server_error (cfg : Config) (name : String)
    (params : List (String × String)) (sr : Bool) (msg : String)
    (hfm : firstMissing (applyLegacy cfg) = some msg) :
    _configure true cfg name params sr =
      (PsychoJSStatus.CONFIGURING,
        Except.error
          { origin := configResponseOrigin,
            context := configResponseContext,
            error := msg }) := by
  have hbody : configureBody true cfg name = Except.error msg := by
    have h0 : configureBody true cfg name = validateFixedConfig (applyLegacy cfg) := rfl
    rw [h0, validateFixedConfig_eq, hfm]
  unfold _configure
  rw [hbody]

/-- A server response whose `pavlovia.URL` and `gitlab.projectId` are
present but empty strings. -/
def cfgEmptyStrings : Config :=
  { environment := none,
    psychoJsManager := false,
    experiment := some
      { name := some "exp", fullpath := some "user/exp", keys := none,
        saveFormat := none, saveIncompleteResults := none, resultsUpload := none },
    pavlovia := some { URL := some "" },
    gitlab := some { projectId := some "" } }

/-- C4 counterexample: `_configure` only tests key PRESENCE with the `in`
operator, so a configuration whose `pavlovia.URL` and `gitlab.projectId`
are empty strings is accepted with `environment = SERVER` — the claimed
non-emptiness invariant does not hold. -/
theorem configure_accepts_empty_url :
    (configuredConfig (_configure true cfgEmptyStrings "exp" [] true)).map
        Config.pavloviaURL = some (some "")
      ∧ (configuredConfig (_configure true cfgEmptyStrings "exp" [] true)).map
          Config.gitlabProjectId = some (some "")
      ∧ (configuredConfig (_configure true cfgEmptyStrings "exp" [] true)).map
          (fun c => c.environment) = some (some Environment.SERVER)
      ∧ (_configure true cfgEmptyStrings "exp" [] true).1 = PsychoJSStatus.CONFIGURED :=
  ⟨rfl, rfl, rfl, rfl⟩

/-- C4 (amended): every configuration `_configure` accepts with
`environment = SERVER` has the `pavlovia.URL` and `gitlab.projectId`
fields PRESENT (they may be empty strings); a configuration without a
legacy `psychoJsManager` block in which either field is absent is
rejected with the fatal configuration error. -/
theorem configure_server_url_projectId_present
    (isHost : Bool) (cfg cfg2 : Config) (name : String)
    (params : List (String × String)) (sr : Bool) (c : Config)
    (h : configuredConfig (_configure isHost cfg name params sr) = some c)
    (henv : c.environment = some Environment.SERVER)
    (hleg2 : cfg2.psychoJsManager = false)
    (hviol : cfg2.pavloviaURL = none ∨ cfg2.gitlabProjectId = none) :
    c.pavloviaURL.isSome = true
      ∧ c.gitlabProjectId.isSome = true
      ∧ configureOk (_configure true cfg2 name params sr) = false := by
  have hmain : c.pavloviaURL.isSome = true ∧ c.gitlabProjectId.isSome = true := by
    cases isHost with
    | false =>
      have hloc : configuredConfig (_configure false cfg name params sr)
          = some (localConfigFull name) := rfl
      rw [hloc] at h
      injection h with h
      subst h
      simp [localConfigFull, localConfig, Config.setResultsUpload] at henv
    | true =>
      cases hfm : firstMissing (applyLegacy cfg) with
      | some msg =>
        rw [show configuredConfig (_configure true cfg name params sr) = none by
          rw [configure_server_error cfg name params sr msg hfm]; rfl] at h
        cases h
      | none =>
        rw [show configuredConfig (_configure true cfg name params sr)
            = some (Config.setResultsUpload
                { applyLegacy cfg with environment := some Environment.SERVER }
                { intervalId := -1, period := -1 }) by
          rw [configure_server_ok cfg name params sr hfm]; rfl] at h
        injection h with h
        subst h
        have hf := firstMissing_none_fields (applyLegacy cfg) hfm
        exact ⟨hf.2.1, hf.2.2⟩
  refine ⟨hmain.1, hmain.2, ?_⟩
  have hfix2 : applyLegacy cfg2 = cfg2 := by simp [applyLegacy, hleg2]
  cases hfm2 : firstMissing (applyLegacy cfg2) with
  | some msg =>
    rw [configure_server_error cfg2 name params sr msg hfm2]
    rfl
  | none =>
    exfalso
    have hf := firstMissing_none_fields (applyLegacy cfg2) hfm2
    rw [hfix2] at hf
    rcases hviol with hv | hv
    · rw [hv] at hf; cases hf.2.1
    · rw [hv] at hf; cases hf.2.2

/-- A server response lacking the `URL` key in its `pavlovia` block. -/
def cfgNoURL : Config :=
  { environment := none,
    psychoJsManager := false,
    experiment := some
      { name := some "exp", fullpath := some "user/exp", keys := none,
        saveFormat := none, saveIncompleteResults := none, resultsUpload := none },
    pavlovia := some { URL := none },
    gitlab := some { projectId := some "42" } }

theorem configure_server_url_projectId_present_witness :
    (configuredConfig (_configure true cfgValidServer "exp" [] true)
          = some (Config.setResultsUpload
              { cfgValidServer with environment := some Environment.SERVER }
              { intervalId := -1, period := -1 })
        ∧ (Config.setResultsUpload
              { cfgValidServer with environment := some Environment.SERVER }
              { intervalId := -1, period := -1 }).environment = some Environment.SERVER
        ∧ cfgNoURL.psychoJsManager = false
        ∧ cfgNoURL.pavloviaURL = none)
      ∧ ((Config.setResultsUpload
              { cfgValidServer with environment := some Environment.SERVER }
              { intervalId := -1, period := -1 }).pavloviaURL.isSome = true
          ∧ (Config.setResultsUpload
              { cfgValidServer with environment := some Environment.SERVER }
              { intervalId := -1, period := -1 }).gitlabProjectId.isSome = true
          ∧ configureOk (_configure true cfgNoURL "exp" [] true) = false) :=
  ⟨⟨rfl, rfl, rfl, rfl⟩,
    configure_server_url_projectId_present true cfgValidServer cfgNoURL "exp" [] true
      _ rfl rfl rfl (Or.inl rfl)⟩

/-- C2 counterexample: in a SERVER-environment `quit()`, a `closeSession`
failure is NOT swallowed: at this concrete input `quit()` rethrows the
failure wrapped with `{origin, context, error}`, sets the status to
`ERROR`, and the termination steps after the close do not run. -/
theorem quit_close_failure_cex :
    (quitRun true true true false false (-1) (Except.ok ()) (Except.ok ())
          (Except.error "session close failed")).error
        = some
            { origin := "PsychoJS.quit",
              context := "when terminating the experiment",
              error := "session close failed" }
      ∧ (quitRun true true true false false (-1) (Except.ok ()) (Except.ok ())
            (Except.error "session close failed")).status = PsychoJSStatus.ERROR
      ∧ (quitRun true true true false false (-1) (Except.ok ()) (Except.ok ())
            (Except.error "session close failed")).terminated = false :=
  ⟨rfl, rfl, rfl⟩

/-- C2 (amended): for every `quit()` call in a SERVER-environment run
whose save and flush steps did not themselves fail, if `closeSession`
fails then `quit()` does NOT return normally: the failure is caught, the
status is set to `ERROR`, and the error is rethrown wrapped with
`{origin, context, error}`; the termination steps after the close
(`onTerminate`, dialog) do not run. -/
theorem quit_close_failure_propagates
    (saveIncomplete saveResults isCompleted showOK : Bool) (intervalId0 : Int)
    (e : String) :
    (quitRun true saveIncomplete saveResults isCompleted showOK intervalId0
          (Except.ok ()) (Except.ok ()) (Except.error e)).error
        = some
            { origin := quitResponseOrigin,
              context := quitResponseContext,
              error := e }
      ∧ (quitRun true saveIncomplete saveResults isCompleted showOK intervalId0
            (Except.ok ()) (Except.ok ()) (Except.error e)).status
          = PsychoJSStatus.ERROR
      ∧ (quitRun true saveIncomplete saveResults isCompleted showOK intervalId0
            (Except.ok ()) (Except.ok ()) (Except.error e)).terminated = false := by
  cases isCompleted <;> cases saveIncomplete <;> cases saveResults <;> cases showOK <;>
    simp [quitRun, quitCore, quitCloseAndTerminate]

theorem quitRun_no_save (isServerEnv saveIncomplete isCompleted showOK : Bool)
    (i0 : Int) (so fo co : Except String Unit) :
    (quitRun isServerEnv saveIncomplete false isCompleted showOK i0 so fo co).didSave
        = false
      ∧ (quitRun isServerEnv saveIncomplete false isCompleted showOK i0 so fo co).didFlush
        = false := by
  cases isServerEnv <;> cases co <;>
    simp [quitRun, quitCore, quitCloseAndTerminate]

/-- C7: for every run whose launch URL contains the reserved `__noOutput`
parameter, `_configure` sets the save-results flag to false, and `quit()`
consequently performs no result save and no log flush. -/
theorem noOutput_suppresses_saving
    (isHost : Bool) (cfg : Config) (name : String) (params : List (String × String))
    (sr : Bool) (v : String) (out : ConfigureOutput)
    (hok : (_configure isHost cfg name params sr).2 = Except.ok out)
    (hmem : ("__noOutput", v) ∈ params)
    (isServerEnv saveIncomplete isCompleted showOK : Bool) (i0 : Int)
    (so fo co : Except String Unit) :
    out.saveResults = false
      ∧ (quitRun isServerEnv saveIncomplete out.saveResults isCompleted showOK i0
          so fo co).didSave = false
      ∧ (quitRun isServerEnv saveIncomplete out.saveResults isCompleted showOK i0
          so fo co).didFlush = false := by
  have hshape := configure_ok_shape isHost cfg name params sr out hok
  have hsome : (buildServerMsg params "__noOutput").isSome = true := by
    have hb : buildServerMsg params "__noOutput"
        = params.foldl serverMsgStep emptyServerMsg "__noOutput" := rfl
    rw [hb, foldl_serverMsgStep params emptyServerMsg "__noOutput"]
    have hpre : dunderPrefixed "__noOutput" = true := by decide
    obtain ⟨w, hw⟩ := Option.isSome_iff_exists.mp
      (lastVal_isSome_of_mem params "__noOutput" v hmem)
    simp [hpre, hw]
  have hsave : out.saveResults = false := by
    rw [hshape.2.1, hsome]
    simp
  rw [hsave]
  exact ⟨rfl, quitRun_no_save isServerEnv saveIncomplete isCompleted showOK i0 so fo co⟩

theorem noOutput_suppresses_saving_witness :
    ((_configure false cfgValidServer "exp" [("__noOutput", "1")] true).2
          = Except.ok
              { config := localConfigFull "exp",
                serverMsg := buildServerMsg [("__noOutput", "1")],
                saveResults := false }
        ∧ ("__noOutput", "1") ∈ [("__noOutput", "1")])
      ∧ ((ConfigureOutput.mk (localConfigFull "exp")
              (buildServerMsg [("__noOutput", "1")]) false).saveResults = false
          ∧ (quitRun true true (ConfigureOutput.mk (localConfigFull "exp")
                (buildServerMsg [("__noOutput", "1")]) false).saveResults true false (-1)
              (Except.ok ()) (Except.ok ()) (Except.ok ())).didSave = false
          ∧ (quitRun true true (ConfigureOutput.mk (localConfigFull "exp")
                (buildServerMsg [("__noOutput", "1")]) false).saveResults true false (-1)
              (Except.ok ()) (Except.ok ()) (Except.ok ())).didFlush = false) :=
  ⟨⟨rfl, by simp⟩,
    noOutput_suppresses_saving false cfgValidServer "exp" [("__noOutput", "1")] true "1"
      (ConfigureOutput.mk (localConfigFull "exp")
        (buildServerMsg [("__noOutput", "1")]) false)
      rfl (by simp) true true true false (-1)
      (Except.ok ()) (Except.ok ()) (Except.ok ())⟩

theorem configureBody_ok_experiment (isHost : Bool) (cfg : Config) (name : String)
    (c : Config) (h : configureBody isHost cfg name = Except.ok c) :
    c.experiment.isSome = true := by
  cases isHost with
  | false =>
    have h0 : configureBody false cfg name = Except.ok (localConfig name) := rfl
    rw [h0] at h
    injection h with h
    rw [← h]
    rfl
  | true =>
    have h0 : configureBody true cfg name = validateFixedConfig (applyLegacy cfg) := rfl
    rw [h0, validateFixedConfig_eq] at h
    cases hfm : firstMissing (applyLegacy cfg) with
    | none =>
      rw [hfm] at h
      injection h with h
      rw [← h]
      exact (firstMissing_none_fields _ hfm).1
    | some msg => rw [hfm] at h; cases h

theorem configure_ok_resultsUpload (isHost : Bool) (cfg : Config) (name : String)
    (params : List (String × String)) (sr : Bool) (out : ConfigureOutput)
    (hok : (_configure isHost cfg name params sr).2 = Except.ok out) :
    out.config.resultsUploadOf = some { intervalId := -1, period := -1 } := by
  obtain ⟨-, -, c, hc, hout⟩ := configure_ok_shape isHost cfg name params sr out hok
  obtain ⟨e, he⟩ := Option.isSome_iff_exists.mp (configureBody_ok_experiment isHost cfg name c hc)
  rw [hout]
  simp [Config.setResultsUpload, Config.resultsUploadOf, he]

theorem quitRun_intervalId (a b c d e : Bool) (i : Int)
    (so fo co : Except String Unit) :
    (quitRun a b c d e i so fo co).intervalId = if i > 0 then -1 else i := by
  cases h : (quitCore a b c d e so fo co).thrown <;> simp [quitRun, h]

/-- C5: for every run whose configured `resultsUpload.period` is
non-positive (in particular 0), `start()` never arms the periodic upload
timer, and `resultsUpload.intervalId` remains `-1` from configuration
(where `_configure` initialises it to `-1`) through `start()` and through
the end of the run at `quit()`. -/
theorem period_nonpositive_no_timer
    (isHost : Bool) (cfg : Config) (name : String) (params : List (String × String))
    (sr : Bool) (out : ConfigureOutput)
    (hok : (_configure isHost cfg name params sr).2 = Except.ok out)
    (p : Int) (hp : p ≤ 0) (timerId : Int) (isCompleted showOK : Bool)
    (so fo co : Except String Unit) :
    out.config.resultsUploadOf = some { intervalId := -1, period := -1 }
      ∧ ((startStep
            (RunState.mk (out.config.setPeriod p) out.serverMsg out.saveResults
              PsychoJSStatus.CONFIGURED) timerId).config.resultsUploadOf).map
          (fun ru => ru.intervalId) = some (-1)
      ∧ (((quitStep
            (startStep
              (RunState.mk (out.config.setPeriod p) out.serverMsg out.saveResults
                PsychoJSStatus.CONFIGURED) timerId)
            isCompleted showOK so fo co).1.config.resultsUploadOf).map
          (fun ru => ru.intervalId)) = some (-1) := by
  have hru := configure_ok_resultsUpload isHost cfg name params sr out hok
  obtain ⟨e, he, hruE⟩ : ∃ e, out.config.experiment = some e
      ∧ e.resultsUpload = some { intervalId := -1, period := -1 } := by
    unfold Config.resultsUploadOf at hru
    cases hexp : out.config.experiment with
    | none => rw [hexp] at hru; cases hru
    | some e => rw [hexp] at hru; exact ⟨e, rfl, hru⟩
  have hexp2 : (out.config.setPeriod p).experiment
      = some { e with resultsUpload := some { intervalId := -1, period := p } } := by
    simp [Config.setPeriod, he, hruE]
  have hnot : ∀ q : Prop, ¬(q ∧ out.saveResults = true
      ∧ ({ intervalId := -1, period := p } : ResultsUpload).period > 0) :=
    fun _ hcon => absurd hcon.2.2 (not_lt.mpr hp)
  have hs1 : (startStep
      (RunState.mk (out.config.setPeriod p) out.serverMsg out.saveResults
        PsychoJSStatus.CONFIGURED) timerId).config.experiment
      = some { e with resultsUpload := some { intervalId := -1, period := p } } := by
    simp only [startStep, hexp2, Option.map_some']
    rw [if_neg (hnot _)]
  refine ⟨hru, ?_, ?_⟩
  · simp [Config.resultsUploadOf, hs1]
  · have hup : (startStep
        (RunState.mk (out.config.setPeriod p) out.serverMsg out.saveResults
          PsychoJSStatus.CONFIGURED) timerId).config.resultsUploadOf
        = some { intervalId := -1, period := p } := by
      simp [Config.resultsUploadOf, hs1]
    simp only [quitStep, hup, quitRun_intervalId]
    simp [Config.resultsUploadOf, hs1]

theorem period_nonpositive_no_timer_witness :
    ((_configure false cfgValidServer "exp" [] true).2
          = Except.ok
              (ConfigureOutput.mk (localConfigFull "exp") (buildServerMsg []) true)
        ∧ (0 : Int) ≤ 0)
      ∧ ((ConfigureOutput.mk (localConfigFull "exp") (buildServerMsg [])
              true).config.resultsUploadOf = some { intervalId := -1, period := -1 }
          ∧ ((startStep
                (RunState.mk
                  ((ConfigureOutput.mk (localConfigFull "exp") (buildServerMsg [])
                      true).config.setPeriod 0)
                  (buildServerMsg []) true PsychoJSStatus.CONFIGURED)
                7).config.resultsUploadOf).map (fun ru => ru.intervalId) = some (-1)
          ∧ (((quitStep
                (startStep
                  (RunState.mk
                    ((ConfigureOutput.mk (localConfigFull "exp") (buildServerMsg [])
                        true).config.setPeriod 0)
                    (buildServerMsg []) true PsychoJSStatus.CONFIGURED)
                  7)
                true false (Except.ok ()) (Except.ok ())
                (Except.ok ())).1.config.resultsUploadOf).map
              (fun ru => ru.intervalId)) = some (-1)) :=
  ⟨⟨rfl, by decide⟩,
    period_nonpositive_no_timer false cfgValidServer "exp" [] true
      (ConfigureOutput.mk (localConfigFull "exp") (buildServerMsg []) true) rfl
      0 (by decide) 7 true false (Except.ok ()) (Except.ok ()) (Except.ok ())⟩

/-- C6: after `_configure`, the server message board contains exactly the
URL query parameters whose key begins with a double underscore — looking
up any key yields the (last) value of that parameter when the key is
double-underscore-prefixed and occurs, and nothing otherwise — and it is
populated once at configuration time: neither the `start()` step nor the
`quit()` step touches it. -/
theorem serverMsg_exactly_dunder_params
    (isHost : Bool) (cfg : Config) (name : String) (params : List (String × String))
    (sr : Bool) (out : ConfigureOutput)
    (hok : (_configure isHost cfg name params sr).2 = Except.ok out) :
    (∀ k, out.serverMsg k = if dunderPrefixed k then lastVal params k else none)
      ∧ (∀ (s : RunState) (timerId : Int),
          (startStep s timerId).serverMsg = s.serverMsg)
      ∧ (∀ (s : RunState) (a b : Bool) (so fo co : Except String Unit),
          (quitStep s a b so fo co).1.serverMsg = s.serverMsg) := by
  refine ⟨?_, fun s timerId => rfl, fun s a b so fo co => rfl⟩
  intro k
  rw [(configure_ok_shape isHost cfg name params sr out hok).1]
  have hb : buildServerMsg params k = params.foldl serverMsgStep emptyServerMsg k := rfl
  rw [hb, foldl_serverMsgStep params emptyServerMsg k]
  by_cases hk : dunderPrefixed k
  · cases h : lastVal params k <;> simp [hk, h, emptyServerMsg]
  · simp [hk, emptyServerMsg]

theorem serverMsg_exactly_dunder_params_witness :
    ((_configure false cfgValidServer "exp" [("__a", "1"), ("b", "2"), ("__a", "3")]
            true).2
          = Except.ok
              (ConfigureOutput.mk (localConfigFull "exp")
                (buildServerMsg [("__a", "1"), ("b", "2"), ("__a", "3")]) true))
      ∧ (ConfigureOutput.mk (localConfigFull "exp")
            (buildServerMsg [("__a", "1"), ("b", "2"), ("__a", "3")]) true).serverMsg
            "__a"
          = (if dunderPrefixed "__a" then
              lastVal [("__a", "1"), ("b", "2"), ("__a", "3")] "__a"
            else none) :=
  ⟨rfl,
    (serverMsg_exactly_dunder_params false cfgValidServer "exp"
        [("__a", "1"), ("b", "2"), ("__a", "3")] true
        (ConfigureOutput.mk (localConfigFull "exp")
          (buildServerMsg [("__a", "1"), ("b", "2"), ("__a", "3")]) true) rfl).1
      "__a"⟩
